import Mathlib

/-!
Verification of the embedding facade in `lib/lib.go` of the crush repository.

The Go file wires configuration, a database connection, a backend application
instance and a terminal UI process together.  We embed the observable behaviour
of each exported function as a pure Lean function over an explicit process
environment and an oracle describing the outcomes of the external collaborators
(storage connect, application construction, UI run).  Effectful calls are
recorded as an ordered trace of actions, so properties about escape sequences,
logging and resource release become statements about traces.
-/

namespace CrushLib

/-- Process environment as seen by the Go code: whether stderr is attached to a
terminal, and the map of environment variables.  `os.Getenv` returns the empty
string for an absent variable; `os.LookupEnv` additionally reports presence. -/
structure Env where
  stderrIsTerminal : Bool
  vars : String → Option String

/-- Embedding of `os.Getenv`: the variable's value, or the empty string when it
is absent. -/
def getEnv (e : Env) (n : String) : String :=
  (e.vars n).getD ""

/-- Embedding of the presence bit of `os.LookupEnv`. -/
def lookupEnvPresent (e : Env) (n : String) : Bool :=
  (e.vars n).isSome

/-- Embedding of `strings.ToLower` on the character list of a string. -/
def goToLower (s : List Char) : List Char :=
  s.map Char.toLower

/-- Embedding of `strings.HasPrefix` on character lists: `pat` is an initial
segment of `s`. -/
def hasPrefixL : List Char → List Char → Bool
  | _, [] => true
  | [], _ :: _ => false
  | c :: s, d :: p => c == d && hasPrefixL s p

/-- Embedding of `strings.Contains` on character lists: `pat` occurs as a
contiguous substring of `s`. -/
def containsL : List Char → List Char → Bool
  | [], pat => pat.isEmpty
  | c :: s, pat => hasPrefixL (c :: s) pat || containsL s pat

/-- Embedding of `supportsProgressBar` (lib.go lines 119–126): false unless
stderr is a terminal; otherwise true iff `WT_SESSION` is present or the
lowercased `TERM_PROGRAM` contains "ghostty". -/
def supportsProgressBar (e : Env) : Bool :=
  if !e.stderrIsTerminal then
    false
  else
    let termProg := getEnv e "TERM_PROGRAM"
    let isWindowsTerminal := lookupEnvPresent e "WT_SESSION"
    isWindowsTerminal || containsL (goToLower termProg.toList) "ghostty".toList

/-- The slice of `config.Options` that `RunWithProgressBar` reads: the
tri-state progress flag (`*bool` in Go, so `Option Bool` here) and the data
directory passed to `db.Connect`. -/
structure Options where
  progress : Option Bool
  dataDirectory : String

/-- The slice of the configuration that the facade reads. -/
structure Config where
  options : Options

/-- Embedding of `cfg.Options.Progress == nil || *cfg.Options.Progress`. -/
def progressEnabled (cfg : Config) : Bool :=
  match cfg.options.progress with
  | none => true
  | some b => b

/-- Observable actions performed by `RunTUI` and `RunWithProgressBar`, in
program order. -/
inductive Action where
  | writeEnterProgress
  | writeResetProgress
  | connectDB
  | newApp
  | constructUI
  | spawnSubscribe
  | uiRun
  | logUIError
  | closeConn
deriving DecidableEq, Repr

/-- Outcomes of the three fallible external calls made by the facade, with the
error value each would return.  Quantifying over this oracle quantifies over
every control path of the Go function. -/
structure ExtBehavior where
  connectErr : Option String
  appErr : Option String
  runErr : Option String

/-- The trace and result of the body of `RunWithProgressBar` between the
overlay bracket: connect to the database, construct the app, construct the UI,
spawn the Subscribe goroutine, and run the blocking loop; each fallible step
returns its error immediately.  Note that no step closes the database
connection and no step logs a UI error (lib.go lines 88–116). -/
def innerTrace (ext : ExtBehavior) : List Action × Option String :=
  match ext.connectErr with
  | some e => ([Action.connectDB], some e)
  | none =>
    match ext.appErr with
    | some e => ([Action.connectDB, Action.newApp], some e)
    | none =>
      ([Action.connectDB, Action.newApp, Action.constructUI,
        Action.spawnSubscribe, Action.uiRun], ext.runErr)

/-- Embedding of the conditional enter write plus the deferred reset write in
`RunWithProgressBar` (lib.go lines 83–86): when active, the enter sequence is
written before the body and the deferred reset sequence runs on every return
path after it. -/
def wrapOverlay (active : Bool) (inner : List Action) : List Action :=
  if active then
    Action.writeEnterProgress :: (inner ++ [Action.writeResetProgress])
  else
    inner

/-- Embedding of `RunWithProgressBar` (lib.go lines 79–117) as its action
trace and returned error. -/
def runWithProgressBar (cfg : Config) (env : Env) (ext : ExtBehavior) :
    List Action × Option String :=
  let supportsProgress := supportsProgressBar env
  let enabled := progressEnabled cfg
  let inner := innerTrace ext
  (wrapOverlay (enabled && supportsProgress) inner.1, inner.2)

/-- Embedding of `RunTUI` (lib.go lines 55–74) as its action trace and
returned error: construct the UI, spawn the Subscribe goroutine, run the
blocking loop; a non-nil run error is logged and propagated unchanged. -/
def runTUI (ext : ExtBehavior) : List Action × Option String :=
  match ext.runErr with
  | some e =>
    ([Action.constructUI, Action.spawnSubscribe, Action.uiRun,
      Action.logUIError], some e)
  | none =>
    ([Action.constructUI, Action.spawnSubscribe, Action.uiRun], none)

/-- Modelled from the spec: the body of `App.Subscribe` lives in
`internal/app`, which is not under src/; lib.go only spawns it with
`go appInstance.Subscribe(program)`.  Spec §4.4 describes the Event Bridge as
a concurrent pump that forwards every backend event, in emission order, into
the UI process's input channel, with the producer never blocked by a slow
consumer.  We model the bridge and the UI render loop as two threads acting on
a shared state: `pending` holds events the backend has emitted that the bridge
has not yet forwarded, `chan` is the UI input channel, `consumed` is what the
render loop has drained. -/
structure BridgeState (Ev : Type) where
  pending : List Ev
  chan : List Ev
  consumed : List Ev
deriving DecidableEq, Repr

/-- The two concurrent execution paths of spec §5: the Event Bridge and the
UI render loop. -/
inductive Thread where
  | bridge
  | uiProc
deriving DecidableEq, Repr

/-- One scheduler step: the bridge forwards its next pending event into the
channel (enabled whenever an event is pending, independently of the UI's
progress); the UI loop drains the next channel event.  A thread with nothing
to do leaves the state unchanged. -/
def bridgeStep {Ev : Type} : Thread → BridgeState Ev → BridgeState Ev
  | Thread.bridge, s =>
    match s.pending with
    | [] => s
    | e :: rest => { s with pending := rest, chan := s.chan ++ [e] }
  | Thread.uiProc, s =>
    match s.chan with
    | [] => s
    | e :: rest => { s with chan := rest, consumed := s.consumed ++ [e] }

/-- Run the bridge/UI system under an arbitrary interleaving schedule. -/
def runSched {Ev : Type} (sched : List Thread) (s : BridgeState Ev) :
    BridgeState Ev :=
  sched.foldl (fun s t => bridgeStep t s) s

/-- The initial bridge state for a backend that will emit `evs` in order. -/
def initBridge {Ev : Type} (evs : List Ev) : BridgeState Ev :=
  { pending := evs, chan := [], consumed := [] }

/-- Modelled from the spec: the body of `App.Shutdown` lives in
`internal/app`, which is not under src/.  Spec §3 specifies it as an
idempotent release of backend resources, safe to call after or instead of a
UI run.  The backend state we track is whether its resources are released. -/
structure AppState where
  backendReleased : Bool
deriving DecidableEq, Repr

/-- Modelled from the spec: `(*App).Shutdown` releases the backend's
resources; it returns no error and cannot fail. -/
def appShutdown (_ : AppState) : AppState :=
  { backendReleased := true }

/-- Embedding of the facade's `Shutdown` (lib.go lines 144–146), which
delegates to the application instance's own shutdown. -/
def Shutdown (s : AppState) : AppState :=
  appShutdown s

/-- Case-insensitive substring occurrence, written from the spec's words: the
pattern occurs in `s` as a contiguous substring "in any case", i.e. some
contiguous piece of `s` lowercases to the same characters as the pattern.
This is the spec-side counterpart of the code's lower-then-contains check. -/
def specContainsCI (s pat : List Char) : Prop :=
  ∃ l m r, s = l ++ m ++ r ∧ goToLower m = goToLower pat

theorem hasPrefixL_iff (p s : List Char) :
    hasPrefixL s p = true ↔ ∃ r, s = p ++ r := by
  induction p generalizing s with
  | nil =>
    simp [hasPrefixL]
  | cons d p ih =>
    cases s with
    | nil =>
      simp [hasPrefixL]
    | cons c s =>
      simp only [hasPrefixL, Bool.and_eq_true, beq_iff_eq, ih,
        List.cons_append, List.cons.injEq]
      constructor
      · rintro ⟨rfl, r, rfl⟩
        exact ⟨r, rfl, rfl⟩
      · rintro ⟨r, rfl, rfl⟩
        exact ⟨rfl, r, rfl⟩

theorem containsL_iff (s p : List Char) :
    containsL s p = true ↔ ∃ l r, s = l ++ p ++ r := by
  induction s with
  | nil =>
    simp only [containsL, List.isEmpty_iff]
    constructor
    · rintro rfl
      exact ⟨[], [], rfl⟩
    · rintro ⟨l, r, h⟩
      rcases List.append_eq_nil.mp h.symm with ⟨h1, h2⟩
      rcases List.append_eq_nil.mp h1 with ⟨-, h3⟩
      exact h3
  | cons c s ih =>
    simp only [containsL, Bool.or_eq_true, hasPrefixL_iff, ih]
    constructor
    · rintro (⟨r, hr⟩ | ⟨l, r, rfl⟩)
      · exact ⟨[], r, by simpa using hr⟩
      · exact ⟨c :: l, r, rfl⟩
    · rintro ⟨l, r, h⟩
      cases l with
      | nil =>
        exact Or.inl ⟨r, by simpa using h⟩
      | cons x l =>
        simp only [List.cons_append, List.cons.injEq] at h
        exact Or.inr ⟨l, r, by simpa [List.append_assoc] using h.2⟩

theorem map_eq_append_split {α β : Type} (f : α → β) (s : List α)
    (u v : List β) (h : s.map f = u ++ v) :
    ∃ s₁ s₂, s = s₁ ++ s₂ ∧ s₁.map f = u ∧ s₂.map f = v := by
  induction u generalizing s with
  | nil =>
    exact ⟨[], s, rfl, rfl, by simpa using h⟩
  | cons b u ih =>
    cases s with
    | nil =>
      simp at h
    | cons a s =>
      simp only [List.map_cons, List.cons_append, List.cons.injEq] at h
      rcases h with ⟨hb, hrest⟩
      rcases ih s hrest with ⟨s₁, s₂, rfl, hu, hv⟩
      exact ⟨a :: s₁, s₂, rfl, by simp [hb, hu], hv⟩

theorem contains_lower_iff (s pat : List Char) (hp : goToLower pat = pat) :
    containsL (goToLower s) pat = true ↔ specContainsCI s pat := by
  constructor
  · intro h
    rcases (containsL_iff (goToLower s) pat).mp h with ⟨l, r, hsplit⟩
    rcases map_eq_append_split Char.toLower s (l ++ pat) r
        (by simpa [goToLower, List.append_assoc] using hsplit) with
      ⟨s₁₂, s₃, rfl, h12, h3⟩
    rcases map_eq_append_split Char.toLower s₁₂ l pat h12 with
      ⟨s₁, s₂, rfl, h1, h2⟩
    exact ⟨s₁, s₂, s₃, by simp [List.append_assoc], by
      rw [hp]; simpa [goToLower] using h2⟩
  · rintro ⟨l, m, r, rfl, hm⟩
    refine (containsL_iff _ _).mpr ⟨goToLower l, goToLower r, ?_⟩
    have hp' : List.map Char.toLower pat = pat := hp
    simp only [goToLower, List.map_append] at hm ⊢
    rw [hm, hp']

theorem enter_not_mem_inner (ext : ExtBehavior) :
    Action.writeEnterProgress ∉ (innerTrace ext).1 := by
  unfold innerTrace
  cases ext.connectErr <;> cases ext.appErr <;> simp

theorem reset_not_mem_inner (ext : ExtBehavior) :
    Action.writeResetProgress ∉ (innerTrace ext).1 := by
  unfold innerTrace
  cases ext.connectErr <;> cases ext.appErr <;> simp

theorem bridgeStep_conserves {Ev : Type} (t : Thread) (s : BridgeState Ev) :
    (bridgeStep t s).consumed ++ (bridgeStep t s).chan ++
      (bridgeStep t s).pending = s.consumed ++ s.chan ++ s.pending := by
  cases t with
  | bridge =>
    cases hp : s.pending with
    | nil => simp [bridgeStep, hp]
    | cons e rest => simp [bridgeStep, hp, List.append_assoc]
  | uiProc =>
    cases hc : s.chan with
    | nil => simp [bridgeStep, hc]
    | cons e rest => simp [bridgeStep, hc, List.append_assoc]

theorem runSched_conserves {Ev : Type} (sched : List Thread)
    (s : BridgeState Ev) :
    (runSched sched s).consumed ++ (runSched sched s).chan ++
      (runSched sched s).pending = s.consumed ++ s.chan ++ s.pending := by
  induction sched generalizing s with
  | nil => rfl
  | cons t ts ih =>
    calc (runSched (t :: ts) s).consumed ++ (runSched (t :: ts) s).chan ++
          (runSched (t :: ts) s).pending
        = (bridgeStep t s).consumed ++ (bridgeStep t s).chan ++
          (bridgeStep t s).pending := ih (bridgeStep t s)
      _ = s.consumed ++ s.chan ++ s.pending := bridgeStep_conserves t s

theorem bridge_drains {Ev : Type} (evs chan consumed : List Ev) :
    (runSched (List.replicate evs.length Thread.bridge)
      ⟨evs, chan, consumed⟩).pending = [] := by
  induction evs generalizing chan with
  | nil => rfl
  | cons e rest ih =>
    simpa [runSched, List.replicate, bridgeStep] using ih (chan ++ [e])

theorem close_not_mem_inner (ext : ExtBehavior) :
    Action.closeConn ∉ (innerTrace ext).1 := by
  unfold innerTrace
  cases ext.connectErr <;> cases ext.appErr <;> simp

theorem log_not_mem_inner (ext : ExtBehavior) :
    Action.logUIError ∉ (innerTrace ext).1 := by
  unfold innerTrace
  cases ext.connectErr <;> cases ext.appErr <;> simp

theorem overlay_trace_cases (cfg : Config) (env : Env) (ext : ExtBehavior) :
    (runWithProgressBar cfg env ext).1 =
      if progressEnabled cfg && supportsProgressBar env then
        Action.writeEnterProgress ::
          ((innerTrace ext).1 ++ [Action.writeResetProgress])
      else
        (innerTrace ext).1 := rfl

/-- Sample configuration with the progress flag left unset. -/
def cfgDefault : Config :=
  { options := { progress := none, dataDirectory := "/tmp/crush-data" } }

/-- Sample configuration with the progress flag explicitly false. -/
def cfgNoProgress : Config :=
  { options := { progress := some false, dataDirectory := "/tmp/crush-data" } }

/-- Sample environment: stderr is a terminal and `WT_SESSION` is set. -/
def envWT : Env :=
  { stderrIsTerminal := true,
    vars := fun n => if n = "WT_SESSION" then some "1" else none }

/-- Sample environment: stderr is a terminal and `TERM_PROGRAM` names ghostty
with mixed case. -/
def envGhostty : Env :=
  { stderrIsTerminal := true,
    vars := fun n => if n = "TERM_PROGRAM" then some "Ghostty 1.0" else none }

/-- Sample environment: stderr is a terminal but neither signal variable is
set. -/
def envPlain : Env :=
  { stderrIsTerminal := true, vars := fun _ => none }

/-- Sample environment: like `envWT` but with an extra unrelated variable. -/
def envWTPath : Env :=
  { stderrIsTerminal := true,
    vars := fun n =>
      if n = "WT_SESSION" then some "1"
      else if n = "PATH" then some "/usr/bin" else none }

/-- C1: whenever `RunWithProgressBar` writes the overlay enter escape
sequence, the matching reset escape sequence appears exactly once in its
trace, on every return path (successful UI exit, storage-connect failure,
app-construction failure, UI-loop failure) — the deferred write runs exactly
once before the function returns. -/
theorem overlay_reset_once_on_every_path (cfg : Config) (env : Env)
    (ext : ExtBehavior)
    (h : Action.writeEnterProgress ∈ (runWithProgressBar cfg env ext).1) :
    ((runWithProgressBar cfg env ext).1).count Action.writeResetProgress
      = 1 := by
  rw [overlay_trace_cases] at h ⊢
  by_cases hov : (progressEnabled cfg && supportsProgressBar env) = true
  · rw [if_pos hov]
    rw [List.count_cons, List.count_append,
      List.count_eq_zero.mpr (reset_not_mem_inner ext)]
    simp
  · rw [if_neg hov] at h
    exact absurd h (enter_not_mem_inner ext)

/-- C1 witness: a run with the flag unset, `WT_SESSION` present and stderr a
terminal writes the enter sequence, and the reset sequence appears exactly
once. -/
theorem overlay_reset_once_on_every_path_witness :
    Action.writeEnterProgress ∈
        (runWithProgressBar cfgDefault envWT ⟨none, none, none⟩).1 ∧
      ((runWithProgressBar cfgDefault envWT
        ⟨none, none, none⟩).1).count Action.writeResetProgress = 1 :=
  ⟨by decide,
    overlay_reset_once_on_every_path cfgDefault envWT ⟨none, none, none⟩
      (by decide)⟩

/-- C2: the Event Bridge delivers backend events in emission order with
nothing dropped — under every interleaving of the bridge and the UI loop the
consumed events, the channel contents and the still-pending events concatenate
back to the emitted sequence — the bridge makes progress even when the UI
performs no steps at all (a bridge-only schedule drains everything, so a slow
consumer cannot deadlock the producer), and both `RunTUI` and
`RunWithProgressBar` spawn the Subscribe goroutine as a separate step
immediately before invoking the blocking UI run. -/
theorem event_bridge_order_and_liveness {Ev : Type} (sched : List Thread)
    (evs : List Ev) (cfg : Config) (env : Env) (ext : ExtBehavior) :
    ((runSched sched (initBridge evs)).consumed ++
        (runSched sched (initBridge evs)).chan ++
        (runSched sched (initBridge evs)).pending = evs)
    ∧ (runSched (List.replicate evs.length Thread.bridge)
        (initBridge evs)).pending = []
    ∧ (∃ pre post,
        (runTUI ext).1 = pre ++ [Action.spawnSubscribe, Action.uiRun] ++ post)
    ∧ (ext.connectErr = none → ext.appErr = none →
        ∃ pre post,
          (runWithProgressBar cfg env ext).1 =
            pre ++ [Action.spawnSubscribe, Action.uiRun] ++ post) := by
  refine ⟨?_, bridge_drains evs [] [], ?_, ?_⟩
  · simpa [initBridge] using runSched_conserves sched (initBridge evs)
  · cases hr : ext.runErr with
    | none =>
      exact ⟨[Action.constructUI], [], by simp [runTUI, hr]⟩
    | some e =>
      exact ⟨[Action.constructUI], [Action.logUIError], by simp [runTUI, hr]⟩
  · intro hc ha
    rw [overlay_trace_cases]
    by_cases hov : (progressEnabled cfg && supportsProgressBar env) = true
    · rw [if_pos hov]
      exact ⟨[Action.writeEnterProgress, Action.connectDB, Action.newApp,
        Action.constructUI], [Action.writeResetProgress],
        by simp [innerTrace, hc, ha]⟩
    · rw [if_neg hov]
      exact ⟨[Action.connectDB, Action.newApp, Action.constructUI], [],
        by simp [innerTrace, hc, ha]⟩

/-- C2 witness: a concrete interleaving of three events is conserved in
order, and a concrete successful `RunWithProgressBar` trace spawns the
Subscribe goroutine directly before the blocking run. -/
theorem event_bridge_order_and_liveness_witness :
    ((runSched [Thread.bridge, Thread.uiProc, Thread.bridge, Thread.bridge]
        (initBridge [1, 2, 3])).consumed ++
      (runSched [Thread.bridge, Thread.uiProc, Thread.bridge, Thread.bridge]
        (initBridge [1, 2, 3])).chan ++
      (runSched [Thread.bridge, Thread.uiProc, Thread.bridge, Thread.bridge]
        (initBridge [1, 2, 3])).pending = [1, 2, 3])
    ∧ ∃ pre post,
        (runWithProgressBar cfgDefault envWT ⟨none, none, none⟩).1 =
          pre ++ [Action.spawnSubscribe, Action.uiRun] ++ post :=
  ⟨(event_bridge_order_and_liveness
      [Thread.bridge, Thread.uiProc, Thread.bridge, Thread.bridge]
      [1, 2, 3] cfgDefault envWT ⟨none, none, none⟩).1,
    (event_bridge_order_and_liveness
      [Thread.bridge, Thread.uiProc, Thread.bridge, Thread.bridge]
      [1, 2, 3] cfgDefault envWT ⟨none, none, none⟩).2.2.2 rfl rfl⟩

/-- C3: `RunWithProgressBar` writes the overlay enter sequence iff the
progress flag is unset or explicitly true and the capability check succeeds;
with the flag explicitly false no overlay sequences are written at all. -/
theorem overlay_enter_iff_flag_and_capability (cfg : Config) (env : Env)
    (ext : ExtBehavior) :
    (Action.writeEnterProgress ∈ (runWithProgressBar cfg env ext).1 ↔
      ((cfg.options.progress = none ∨ cfg.options.progress = some true) ∧
        supportsProgressBar env = true))
    ∧ (cfg.options.progress = some false →
        Action.writeEnterProgress ∉ (runWithProgressBar cfg env ext).1 ∧
        Action.writeResetProgress ∉ (runWithProgressBar cfg env ext).1) := by
  have henabled : progressEnabled cfg = true ↔
      (cfg.options.progress = none ∨ cfg.options.progress = some true) := by
    unfold progressEnabled
    cases hq : cfg.options.progress with
    | none => simp
    | some b => cases b <;> simp
  constructor
  · rw [overlay_trace_cases]
    by_cases hov : (progressEnabled cfg && supportsProgressBar env) = true
    · rw [if_pos hov]
      rcases Bool.and_eq_true .. ▸ hov with ⟨he, hs⟩
      simp [henabled.mp he, hs]
    · rw [if_neg hov]
      rw [Bool.and_eq_true] at hov
      push_neg at hov
      constructor
      · intro hmem
        exact absurd hmem (enter_not_mem_inner ext)
      · rintro ⟨hflag, hs⟩
        exact absurd hs (hov (henabled.mpr hflag))
  · intro hfalse
    have : progressEnabled cfg = false := by
      unfold progressEnabled
      rw [hfalse]
    rw [overlay_trace_cases, this]
    simp only [Bool.false_and, Bool.false_eq_true, if_false]
    exact ⟨enter_not_mem_inner ext, reset_not_mem_inner ext⟩

/-- C3 witness: with the flag explicitly false and a capable terminal, no
overlay sequences appear in the trace. -/
theorem overlay_enter_iff_flag_and_capability_witness :
    Action.writeEnterProgress ∉
        (runWithProgressBar cfgNoProgress envWT ⟨none, none, none⟩).1 ∧
      Action.writeResetProgress ∉
        (runWithProgressBar cfgNoProgress envWT ⟨none, none, none⟩).1 :=
  (overlay_enter_iff_flag_and_capability cfgNoProgress envWT
    ⟨none, none, none⟩).2 rfl

/-- C4: `supportsProgressBar` returns false whenever stderr is not a
terminal; when stderr is a terminal it returns true iff `TERM_PROGRAM`
contains the substring "ghostty" in any case, or `WT_SESSION` is present. -/
theorem supportsProgressBar_spec (e : Env) :
    (e.stderrIsTerminal = false → supportsProgressBar e = false)
    ∧ (e.stderrIsTerminal = true →
        (supportsProgressBar e = true ↔
          (specContainsCI (getEnv e "TERM_PROGRAM").toList "ghostty".toList ∨
            lookupEnvPresent e "WT_SESSION" = true))) := by
  constructor
  · intro h
    simp [supportsProgressBar, h]
  · intro h
    have hpat : goToLower "ghostty".toList = "ghostty".toList := by decide
    simp only [supportsProgressBar, h, Bool.not_true, Bool.false_eq_true,
      if_false, Bool.or_eq_true]
    rw [contains_lower_iff _ _ hpat]
    exact or_comm

/-- C4 witness: a terminal environment whose `TERM_PROGRAM` is
"Ghostty 1.0" supports the progress bar, via an explicit case-insensitive
occurrence of "ghostty". -/
theorem supportsProgressBar_spec_witness : supportsProgressBar envGhostty = true :=
  ((supportsProgressBar_spec envGhostty).2 rfl).mpr
    (Or.inl ⟨[], "Ghostty".toList, " 1.0".toList, by decide, by decide⟩)

/-- C5 counterexample: a concrete UI-loop failure in `RunWithProgressBar`
propagates the error but its trace contains no log record, refuting the claim
that both entry points emit a standalone log record for UI-loop failures. -/
theorem runWithProgressBar_no_uiLog_cex :
    (runWithProgressBar cfgNoProgress envPlain
        ⟨none, none, some "ui failure"⟩).2 = some "ui failure" ∧
      Action.logUIError ∉
        (runWithProgressBar cfgNoProgress envPlain
          ⟨none, none, some "ui failure"⟩).1 := by
  decide

/-- C5 amended: on a UI-loop failure `RunTUI` emits a standalone log record
and propagates the error unchanged, while `RunWithProgressBar` propagates the
error unchanged but emits no log record; on a nil run result both return
success. -/
theorem uiLoop_error_reporting (cfg : Config) (env : Env) (ext : ExtBehavior)
    (hc : ext.connectErr = none) (ha : ext.appErr = none) :
    (runTUI ext).2 = ext.runErr
    ∧ (Action.logUIError ∈ (runTUI ext).1 ↔ ext.runErr ≠ none)
    ∧ (runWithProgressBar cfg env ext).2 = ext.runErr
    ∧ Action.logUIError ∉ (runWithProgressBar cfg env ext).1 := by
  refine ⟨?_, ?_, ?_, ?_⟩
  · unfold runTUI
    cases ext.runErr <;> simp
  · unfold runTUI
    cases ext.runErr <;> simp
  · show (innerTrace ext).2 = ext.runErr
    unfold innerTrace
    rw [hc, ha]
  · rw [overlay_trace_cases]
    by_cases hov : (progressEnabled cfg && supportsProgressBar env) = true
    · rw [if_pos hov]
      simpa using log_not_mem_inner ext
    · rw [if_neg hov]
      exact log_not_mem_inner ext

/-- C5 amended witness: a concrete UI-loop failure is logged and propagated
by `RunTUI`. -/
theorem uiLoop_error_reporting_witness :
    (runTUI ⟨none, none, some "boom"⟩).2 = some "boom" ∧
      Action.logUIError ∈ (runTUI ⟨none, none, some "boom"⟩).1 :=
  ⟨(uiLoop_error_reporting cfgDefault envPlain ⟨none, none, some "boom"⟩
      rfl rfl).1,
    ((uiLoop_error_reporting cfgDefault envPlain ⟨none, none, some "boom"⟩
      rfl rfl).2.1).mpr (by decide)⟩

/-- C6 counterexample: on a concrete app-construction failure the database
was connected, yet the trace contains no close of the connection, refuting
the claim that the already-opened database connection is released. -/
theorem appFailure_leaves_conn_open_cex :
    Action.connectDB ∈
        (runWithProgressBar cfgNoProgress envPlain
          ⟨none, some "app init failed", none⟩).1
    ∧ Action.closeConn ∉
        (runWithProgressBar cfgNoProgress envPlain
          ⟨none, some "app init failed", none⟩).1
    ∧ (runWithProgressBar cfgNoProgress envPlain
        ⟨none, some "app init failed", none⟩).2 = some "app init failed" := by
  decide

/-- C6 amended: every construction-stage failure — a storage-connect failure,
or a successful connect followed by an app-construction failure —
short-circuits `RunWithProgressBar` before the UI process is constructed, the
Subscribe goroutine is started or the blocking run is invoked, and the error
is returned; however the database connection is never closed by
`RunWithProgressBar`, so an app-construction failure (where the connect had
already succeeded) does not release the already-opened connection. -/
theorem construction_failure_short_circuit (cfg : Config) (env : Env)
    (ext : ExtBehavior) (e : String)
    (h : ext.connectErr = some e ∨
      (ext.connectErr = none ∧ ext.appErr = some e)) :
    (runWithProgressBar cfg env ext).2 = some e
    ∧ Action.constructUI ∉ (runWithProgressBar cfg env ext).1
    ∧ Action.spawnSubscribe ∉ (runWithProgressBar cfg env ext).1
    ∧ Action.uiRun ∉ (runWithProgressBar cfg env ext).1
    ∧ Action.closeConn ∉ (runWithProgressBar cfg env ext).1
    ∧ (ext.connectErr = none →
        Action.connectDB ∈ (runWithProgressBar cfg env ext).1) := by
  rcases h with hc | ⟨hc, ha⟩
  · have htrace : (innerTrace ext).1 = [Action.connectDB] := by
      unfold innerTrace
      rw [hc]
    have hres : (innerTrace ext).2 = some e := by
      unfold innerTrace
      rw [hc]
    refine ⟨hres, ?_, ?_, ?_, ?_,
      fun hnone => Option.noConfusion (hc.symm.trans hnone)⟩
    all_goals
      rw [overlay_trace_cases]
      by_cases hov : (progressEnabled cfg && supportsProgressBar env) = true
      · rw [if_pos hov, htrace]
        decide
      · rw [if_neg hov, htrace]
        decide
  · have htrace : (innerTrace ext).1 = [Action.connectDB, Action.newApp] := by
      unfold innerTrace
      rw [hc, ha]
    have hres : (innerTrace ext).2 = some e := by
      unfold innerTrace
      rw [hc, ha]
    refine ⟨hres, ?_, ?_, ?_, ?_, fun _ => ?_⟩ <;>
      · rw [overlay_trace_cases]
        by_cases hov : (progressEnabled cfg && supportsProgressBar env) = true
        · rw [if_pos hov, htrace]
          decide
        · rw [if_neg hov, htrace]
          decide

/-- C6 amended witness: a concrete app-construction failure short-circuits,
had opened the connection, and leaves it unclosed; a concrete storage-connect
failure also returns its error. -/
theorem construction_failure_short_circuit_witness :
    ((runWithProgressBar cfgDefault envWT
        ⟨none, some "app init failed", none⟩).2 = some "app init failed"
      ∧ Action.uiRun ∉
          (runWithProgressBar cfgDefault envWT
            ⟨none, some "app init failed", none⟩).1
      ∧ Action.closeConn ∉
          (runWithProgressBar cfgDefault envWT
            ⟨none, some "app init failed", none⟩).1
      ∧ Action.connectDB ∈
          (runWithProgressBar cfgDefault envWT
            ⟨none, some "app init failed", none⟩).1)
    ∧ (runWithProgressBar cfgDefault envWT
        ⟨some "db unavailable", none, none⟩).2 = some "db unavailable" :=
  ⟨⟨(construction_failure_short_circuit cfgDefault envWT
      ⟨none, some "app init failed", none⟩ "app init failed"
      (Or.inr ⟨rfl, rfl⟩)).1,
    (construction_failure_short_circuit cfgDefault envWT
      ⟨none, some "app init failed", none⟩ "app init failed"
      (Or.inr ⟨rfl, rfl⟩)).2.2.2.1,
    (construction_failure_short_circuit cfgDefault envWT
      ⟨none, some "app init failed", none⟩ "app init failed"
      (Or.inr ⟨rfl, rfl⟩)).2.2.2.2.1,
    (construction_failure_short_circuit cfgDefault envWT
      ⟨none, some "app init failed", none⟩ "app init failed"
      (Or.inr ⟨rfl, rfl⟩)).2.2.2.2.2 rfl⟩,
    (construction_failure_short_circuit cfgDefault envWT
      ⟨some "db unavailable", none, none⟩ "db unavailable" (Or.inl rfl)).1⟩

/-- C7: a storage-connect failure makes `RunWithProgressBar` return that
error without constructing the app, constructing the UI process, starting the
Subscribe goroutine or invoking the blocking run; and the reset escape
sequence is written exactly as many times as the enter sequence, so an
overlay entered before the connect is still exited before the error
returns. -/
theorem connect_failure_short_circuit (cfg : Config) (env : Env)
    (ext : ExtBehavior) (e : String) (hc : ext.connectErr = some e) :
    (runWithProgressBar cfg env ext).2 = some e
    ∧ Action.newApp ∉ (runWithProgressBar cfg env ext).1
    ∧ Action.constructUI ∉ (runWithProgressBar cfg env ext).1
    ∧ Action.spawnSubscribe ∉ (runWithProgressBar cfg env ext).1
    ∧ Action.uiRun ∉ (runWithProgressBar cfg env ext).1
    ∧ ((runWithProgressBar cfg env ext).1).count Action.writeResetProgress =
        ((runWithProgressBar cfg env ext).1).count Action.writeEnterProgress := by
  have htrace : (innerTrace ext).1 = [Action.connectDB] := by
    unfold innerTrace
    rw [hc]
  have hres : (innerTrace ext).2 = some e := by
    unfold innerTrace
    rw [hc]
  refine ⟨hres, ?_, ?_, ?_, ?_, ?_⟩ <;>
    · rw [overlay_trace_cases]
      by_cases hov : (progressEnabled cfg && supportsProgressBar env) = true
      · rw [if_pos hov, htrace]
        decide
      · rw [if_neg hov, htrace]
        decide

/-- C7 witness: a concrete connect failure under an active overlay returns
the error, writes the enter sequence, and pairs it with a reset. -/
theorem connect_failure_short_circuit_witness :
    Action.writeEnterProgress ∈
        (runWithProgressBar cfgDefault envWT
          ⟨some "db locked", none, none⟩).1
    ∧ (runWithProgressBar cfgDefault envWT
        ⟨some "db locked", none, none⟩).2 = some "db locked"
    ∧ ((runWithProgressBar cfgDefault envWT
          ⟨some "db locked", none, none⟩).1).count Action.writeResetProgress =
        ((runWithProgressBar cfgDefault envWT
          ⟨some "db locked", none, none⟩).1).count Action.writeEnterProgress :=
  ⟨by decide,
    (connect_failure_short_circuit cfgDefault envWT
      ⟨some "db locked", none, none⟩ "db locked" rfl).1,
    (connect_failure_short_circuit cfgDefault envWT
      ⟨some "db locked", none, none⟩ "db locked" rfl).2.2.2.2.2⟩

/-- C8: calling `Shutdown` twice on the same application instance is a no-op
the second time — the state after two calls equals the state after one — and
the embedding returns no error on any state, so it is safe after or instead
of a UI run. -/
theorem shutdown_idempotent (s : AppState) :
    Shutdown (Shutdown s) = Shutdown s := rfl

/-- C8 witness: double shutdown on a live instance equals a single
shutdown. -/
theorem shutdown_idempotent_witness :
    Shutdown (Shutdown ⟨false⟩) = Shutdown ⟨false⟩ :=
  shutdown_idempotent ⟨false⟩

/-- C9: `supportsProgressBar` depends only on whether stderr is a terminal
and on the `TERM_PROGRAM` and `WT_SESSION` variables: any two environments
agreeing on those three inputs yield the same result. -/
theorem supportsProgressBar_noninterference (e₁ e₂ : Env)
    (ht : e₁.stderrIsTerminal = e₂.stderrIsTerminal)
    (hp : e₁.vars "TERM_PROGRAM" = e₂.vars "TERM_PROGRAM")
    (hw : e₁.vars "WT_SESSION" = e₂.vars "WT_SESSION") :
    supportsProgressBar e₁ = supportsProgressBar e₂ := by
  simp only [supportsProgressBar, getEnv, lookupEnvPresent, ht, hp, hw]

/-- C9 witness: adding an unrelated `PATH` variable does not change the
result. -/
theorem supportsProgressBar_noninterference_witness :
    supportsProgressBar envWTPath = supportsProgressBar envWT :=
  supportsProgressBar_noninterference envWTPath envWT rfl (by decide)
    (by decide)

/-- C10: on every path of `RunWithProgressBar` the database connection
obtained from its internal connect is never closed before the function
returns (and the returned value carries only the error, never the handle, so
no caller can release it either). -/
theorem conn_never_closed (cfg : Config) (env : Env) (ext : ExtBehavior) :
    Action.closeConn ∉ (runWithProgressBar cfg env ext).1 := by
  rw [overlay_trace_cases]
  by_cases hov : (progressEnabled cfg && supportsProgressBar env) = true
  · rw [if_pos hov]
    simpa using close_not_mem_inner ext
  · rw [if_neg hov]
    exact close_not_mem_inner ext

/-- C10 witness: a concrete successful run never closes the connection. -/
theorem conn_never_closed_witness :
    Action.closeConn ∉
      (runWithProgressBar cfgDefault envWT ⟨none, none, none⟩).1 :=
  conn_never_closed cfgDefault envWT ⟨none, none, none⟩

end CrushLib
